import Mathlib

/-!
Verification of the Steadicam test-harness core against its specification.

The definitions below are a shallow embedding of the Go sources:
* the trip/severity error model (package `trip`),
* the model-update synchronization core (`stageModelWrapper.Update`,
  `StageDirector.syncModelUpdates`),
* the wait/condition engine (`WaitForMode`, `WaitForText`,
  `WaitForSearchResults` of `StageDirector`, `WaitForText` of
  `InteractiveTestDirector`),
* the lifecycle operations (`recordTrip`, `Stop` of both directors,
  `handleModelPanic`, `handleInvalidModelState`),
* the interaction layer (`Type`) together with the repository's own
  `MockREPL` driven program.

Go `int64` counters and sequence numbers are modelled as `Int` (no claim
involves wraparound); timestamps, logging, and the `testing.T` plumbing
are elided, as are lock/channel mechanics: the background consumer is
modelled as a fold of its loop body over the list of dequeued updates,
and each polling wait takes the list of states it would observe at
successive poll ticks (exhaustion of the list plays the role of the
timeout timer firing).
-/

namespace Steadicam

/-! ### Trip / severity model (package `trip`) -/

/-- Severity of a trip: `Stumble`, `Error`, `Fall` (trip package). -/
inductive Severity
  | stumble
  | error
  | fall
deriving DecidableEq

/-- A trip: tagged error value with free-form context.  The Go
`Context` map is modelled as an association list; timestamps and the
attempt counter are elided. -/
structure Trip where
  type : String
  message : String
  context : List (String × String)
  severity : Severity
deriving DecidableEq

/-- `trip.NewTrip`: default severity is `Error`. -/
def newTrip (errorType message : String) (context : List (String × String)) : Trip :=
  { type := errorType, message := message, context := context, severity := .error }

/-- `trip.NewFall`: severity `Fall`. -/
def newFall (errorType message : String) (context : List (String × String)) : Trip :=
  { type := errorType, message := message, context := context, severity := .fall }

/-- `trip.NewStumble`: severity `Stumble`. -/
def newStumble (errorType message : String) (context : List (String × String)) : Trip :=
  { type := errorType, message := message, context := context, severity := .stumble }

/-- `Trip.CanRecover`: true exactly for `Stumble` severity. -/
def Trip.canRecover (t : Trip) : Bool :=
  t.severity == .stumble

/-- `Trip.IsFall`. -/
def Trip.isFall (t : Trip) : Bool :=
  t.severity == .fall

/-- The trip handler's collected lists (`Handler.trips` / `Handler.stumbles`);
the component name and policy play no role in the recorded-trip claims. -/
structure Handler where
  trips : List Trip
  stumbles : List Trip
deriving DecidableEq

/-- `Handler.Record`: stumbles go to the stumble list, everything else to
the trip list. -/
def Handler.record (h : Handler) (t : Trip) : Handler :=
  if t.severity == .stumble then { h with stumbles := h.stumbles ++ [t] }
  else { h with trips := h.trips ++ [t] }

/-- `newStageTrip` (dashboard.go): builds a trip via `trip.NewTrip`,
so with the default `Error` severity. -/
def newStageTrip (errorType message : String) (context : List (String × String)) : Trip :=
  newTrip errorType message context

/-! ### Model-update synchronization core -/

/-- `modelUpdate`: a sequenced state snapshot (timestamp elided). -/
structure ModelUpdate (M : Type) where
  model : M
  sequence : Int
deriving DecidableEq

/-- Producer-side state of the synchronization pipeline: the buffered
channel (FIFO queue with fixed capacity) plus the atomic counters touched
by `stageModelWrapper.Update`. -/
structure PubState (M : Type) where
  queue : List (ModelUpdate M)
  capacity : Nat
  updateSeq : Int
  updatesSent : Int
  bufferOverflows : Int
  droppedUpdates : Int
deriving DecidableEq

/-- `stageModelWrapper.Update`, publish path: generate the sequence number
by one atomic increment, then a non-blocking channel send — enqueue and
bump `updatesSent` when the buffer has room, otherwise drop the update and
bump both `bufferOverflows` and `droppedUpdates`. -/
def publish {M : Type} (st : PubState M) (m : M) : PubState M :=
  let seq := st.updateSeq + 1
  let u : ModelUpdate M := { model := m, sequence := seq }
  if st.queue.length < st.capacity then
    { st with updateSeq := seq, queue := st.queue ++ [u],
              updatesSent := st.updatesSent + 1 }
  else
    { st with updateSeq := seq, bufferOverflows := st.bufferOverflows + 1,
              droppedUpdates := st.droppedUpdates + 1 }

/-- Consumer-side synchronized state cell plus the counters touched by
`syncModelUpdates`. -/
structure SyncState (M : Type) where
  latest : M
  lastProcessedSeq : Int
  duplicateUpdates : Int
  sequenceGaps : Int
  updatesProcessed : Int
deriving DecidableEq

/-- One iteration of the `syncModelUpdates` consumer loop on a dequeued
update: discard duplicates/out-of-order (`sequence ≤ lastProcessedSeq`)
counting `duplicateUpdates`; count `sequenceGaps` on a gap
(`sequence > lastProcessedSeq + 1`) but still apply; applying sets
`latest`, `lastProcessedSeq` and bumps `updatesProcessed`. -/
def stepSync {M : Type} (st : SyncState M) (u : ModelUpdate M) : SyncState M :=
  if u.sequence ≤ st.lastProcessedSeq then
    { st with duplicateUpdates := st.duplicateUpdates + 1 }
  else
    let st1 := if u.sequence > st.lastProcessedSeq + 1
      then { st with sequenceGaps := st.sequenceGaps + 1 } else st
    { st1 with latest := u.model, lastProcessedSeq := u.sequence,
               updatesProcessed := st1.updatesProcessed + 1 }

/-- The consumer draining a list of dequeued updates in order. -/
def runSync {M : Type} (st : SyncState M) (us : List (ModelUpdate M)) : SyncState M :=
  us.foldl stepSync st

end Steadicam

namespace Steadicam

/-! ### Director state and lifecycle -/

/-- `StageAction` (timestamp and result elided): one recorded step. -/
structure StageAction where
  type : String
  details : String
deriving DecidableEq

/-- `StageSnapshot` (timestamp elided). -/
structure StageSnapshot where
  view : String
  mode : String
  input : String
deriving DecidableEq

/-- The `StageDirector` fields the lifecycle / error-handling claims are
about.  The synchronization fields live in `PubState`/`SyncState` above;
`cancelled` records whether `d.cancel()` has been invoked. -/
structure StageState where
  interactions : List StageAction
  snapshots : List StageSnapshot
  tripHandler : Handler
  lastTrip : Option Trip
  failed : Bool
  started : Bool
  cancelled : Bool
  captureViews : Bool
deriving DecidableEq

/-- A freshly constructed `StageDirector` (`NewStageDirectorWithConfig`
with the default `CaptureViews = true`). -/
def initStage : StageState :=
  { interactions := [], snapshots := [], tripHandler := ⟨[], []⟩,
    lastTrip := none, failed := false, started := false,
    cancelled := false, captureViews := true }

/-- `StageDirector.recordTrip`: hand the trip to the handler, remember it
as `lastTrip`, and set `failed` exactly when the trip is not recoverable
(i.e. not a `Stumble`). -/
def recordTrip (st : StageState) (t : Trip) : StageState :=
  { st with tripHandler := st.tripHandler.record t,
            lastTrip := some t,
            failed := if t.canRecover then st.failed else true }

/-- `StageDirector.getErrorMessage`. -/
def getErrorMessage (st : StageState) : String :=
  match st.lastTrip with
  | some t => "[" ++ t.type.toLower ++ "] " ++ t.message
  | none => ""

/-- `StageResult` (duration, error, errorDetails and tripReport elided;
the success/actions/snapshots/message fields are the ones the claims
mention). -/
structure StageResult where
  actions : List StageAction
  snapshots : List StageSnapshot
  success : Bool
  errorMessage : String
deriving DecidableEq

/-- `StageDirector.Stop`: append a final snapshot when capture is enabled
and the director was started, cancel the context, and assemble the result
with `success = !failed && lastTrip == nil`.  `cur` is the best-effort
final snapshot the code would capture.  Note there is no never-started
guard in this method. -/
def stageStop (st : StageState) (cur : StageSnapshot) : StageState × StageResult :=
  let st1 := if st.captureViews && st.started
    then { st with snapshots := st.snapshots ++ [cur] } else st
  let st2 := { st1 with cancelled := true }
  let success := !st2.failed && st2.lastTrip.isNone
  (st2, { actions := st2.interactions, snapshots := st2.snapshots,
          success := success, errorMessage := getErrorMessage st2 })

/-! `InteractiveTestDirector` (the older director in the same package). -/

/-- `TestError`: the `InteractiveTestDirector` error value (no severity
field exists on it). -/
structure TestError where
  type : String
  message : String
  context : List (String × String)
deriving DecidableEq

/-- The `InteractiveTestDirector` fields the claims are about. -/
structure ITDState where
  interactions : List StageAction
  snapshots : List StageSnapshot
  lastError : Option TestError
  failed : Bool
  started : Bool
  cancelled : Bool
deriving DecidableEq

/-- A freshly constructed `InteractiveTestDirector`. -/
def initITD : ITDState :=
  { interactions := [], snapshots := [], lastError := none,
    failed := false, started := false, cancelled := false }

/-- `InteractiveTestDirector.recordError`. -/
def itdRecordError (st : ITDState) (e : TestError) : ITDState :=
  { st with lastError := some e, failed := true }

/-- `TestResult` (duration elided). -/
structure TestResult where
  interactions : List StageAction
  snapshots : List StageSnapshot
  success : Bool
  errorMessage : String
deriving DecidableEq

/-- `TestError.Error()`. -/
def testErrorMessage (e : TestError) : String :=
  e.type ++ ": " ++ e.message

/-- `InteractiveTestDirector.Stop`: a never-started director yields an
immediate failure result (empty lists, fixed message) and the state is
left untouched; otherwise cancel and assemble the result with
`success = !failed`. -/
def interactiveStop (st : ITDState) : ITDState × TestResult :=
  if st.started then
    let st1 := { st with cancelled := true }
    (st1, { interactions := st.interactions, snapshots := st.snapshots,
            success := !st.failed,
            errorMessage := match st.lastError with
              | some e => testErrorMessage e
              | none => "" })
  else
    (st, { interactions := [], snapshots := [], success := false,
           errorMessage := "Test director was never started" })

/-! ### Wait/condition engine -/

/-- Boolean prefix test on character lists. -/
def charsPrefix : List Char → List Char → Bool
  | [], _ => true
  | _ :: _, [] => false
  | a :: as, b :: bs => a == b && charsPrefix as bs

/-- Boolean infix (substring) test on character lists. -/
def charsInfix (needle : List Char) : List Char → Bool
  | [] => needle.isEmpty
  | b :: bs => charsPrefix needle (b :: bs) || charsInfix needle bs

/-- Go `strings.Contains(s, sub)`. -/
def strContains (s sub : String) : Bool :=
  charsInfix sub.toList s.toList

/-- `StageDirector.truncateString`. -/
def truncateString (s : String) (maxLen : Nat) : String :=
  if s.length ≤ maxLen then s else s.take maxLen ++ "..."

/-- Polling body of `StageDirector.WaitForMode`: `sched` lists the mode
observed at each poll tick before the timeout timer fires; `atTimeout` is
the mode read while building the timeout trip.  Returns the new state and
the number of polls performed (quote characters of the Go format string
are elided from the message). -/
def waitForModeLoop (expected atTimeout : String) :
    List String → StageState → Nat → StageState × Nat
  | [], st, polls =>
      (recordTrip st (newStageTrip "WAIT_MODE_TIMEOUT"
        ("Timeout waiting for mode " ++ expected)
        [("expected_mode", expected), ("current_mode", atTimeout)]), polls)
  | m :: rest, st, polls =>
      if m == expected then (st, polls + 1)
      else waitForModeLoop expected atTimeout rest st (polls + 1)

/-- `StageDirector.WaitForMode`: short-circuits without polling when the
director has already failed. -/
def waitForMode (st : StageState) (expected : String)
    (sched : List String) (atTimeout : String) : StageState × Nat :=
  if st.failed then (st, 0)
  else waitForModeLoop expected atTimeout sched st 0

/-- Polling body of `StageDirector.WaitForText`. -/
def waitForTextLoop (text atTimeout : String) :
    List String → StageState → Nat → StageState × Nat
  | [], st, polls =>
      (recordTrip st (newStageTrip "WAIT_TEXT_TIMEOUT"
        ("Timeout waiting for text " ++ text)
        [("expected_text", text), ("current_view", atTimeout)]), polls)
  | v :: rest, st, polls =>
      if strContains v text then (st, polls + 1)
      else waitForTextLoop text atTimeout rest st (polls + 1)

/-- `StageDirector.WaitForText`. -/
def waitForText (st : StageState) (text : String)
    (views : List String) (atTimeout : String) : StageState × Nat :=
  if st.failed then (st, 0)
  else waitForTextLoop text atTimeout views st 0

/-- Polling body of `StageDirector.WaitForSearchResults`. -/
def waitForSearchResultsLoop (atTimeout : String) :
    List String → StageState → Nat → StageState × Nat
  | [], st, polls =>
      (recordTrip st (newStageTrip "WAIT_RESULTS_TIMEOUT"
        "Timeout waiting for search results"
        [("current_view", truncateString atTimeout 200)]), polls)
  | v :: rest, st, polls =>
      if strContains v "Live Results:" || strContains v "Found" then (st, polls + 1)
      else waitForSearchResultsLoop atTimeout rest st (polls + 1)

/-- `StageDirector.WaitForSearchResults`. -/
def waitForSearchResults (st : StageState)
    (views : List String) (atTimeout : String) : StageState × Nat :=
  if st.failed then (st, 0)
  else waitForSearchResultsLoop atTimeout views st 0

/-- Polling body of `InteractiveTestDirector.WaitForText` (this director
has no failed-short-circuit; on success it records a `wait_condition`
interaction, on timeout a `TestError` of type `timeout`). -/
def itdWaitForTextLoop (text atTimeout : String) :
    List String → ITDState → ITDState
  | [], st =>
      itdRecordError st
        { type := "timeout",
          message := "Timeout waiting for text " ++ text,
          context := [("expected_text", text), ("current_view", atTimeout)] }
  | v :: rest, st =>
      if strContains v text then
        { st with interactions := st.interactions ++ [⟨"wait_condition", "text=" ++ text⟩] }
      else itdWaitForTextLoop text atTimeout rest st

/-- `InteractiveTestDirector.WaitForText`. -/
def itdWaitForText (st : ITDState) (text : String)
    (views : List String) (atTimeout : String) : ITDState :=
  itdWaitForTextLoop text atTimeout views st

/-! ### Assertions (stage director) -/

/-- `StageDirector.AssertViewContains` with the current view passed in;
note it has no failed-short-circuit. -/
def assertViewContains (st : StageState) (view text : String) : StageState :=
  if strContains view text then
    { st with interactions := st.interactions ++ [⟨"assertion", "contains=" ++ text⟩] }
  else
    recordTrip st (newStageTrip "assertion"
      ("View does not contain expected text: " ++ text)
      [("expected", text), ("actual_view", view)])

/-! ### Fail-fast handlers -/

/-- `StageDirector.captureErrorSnapshot`. -/
def captureErrorSnapshot (st : StageState)
    (errorType errorMessage curView curInput : String) : StageState :=
  { st with snapshots := st.snapshots ++
      [{ view := "ERROR STATE (" ++ errorType ++ ")\n" ++ errorMessage
            ++ "\n\nLast View:\n" ++ curView,
         mode := "error_" ++ errorType,
         input := curInput }] }

/-- `StageDirector.handleModelPanic`: capture an error snapshot, record a
`MODEL_PANIC` trip built with `newStageTrip`, and cancel the context
(timestamp context entry elided). -/
def handleModelPanic (st : StageState)
    (panicValue teaMsg modelType curView curInput : String) : StageState :=
  let st1 := captureErrorSnapshot st "model_panic" ("Panic: " ++ panicValue)
    curView curInput
  let st2 := recordTrip st1 (newStageTrip "MODEL_PANIC"
    ("Model panic during Update: " ++ panicValue)
    [("panic_value", panicValue), ("tea_msg", teaMsg), ("model_type", modelType)])
  { st2 with cancelled := true }

/-- `StageDirector.handleInvalidModelState`: same shape for a nil or
non-conforming model returned by `Update`. -/
def handleInvalidModelState (st : StageState)
    (reason teaMsg modelType curView curInput : String) : StageState :=
  let st1 := captureErrorSnapshot st "invalid_model_state" reason curView curInput
  let st2 := recordTrip st1 (newStageTrip "INVALID_MODEL_STATE" reason
    [("tea_msg", teaMsg), ("model_type", modelType)])
  { st2 with cancelled := true }

/-! ### MockREPL and the typing layer -/

/-- The key messages the repository's `MockREPL.Update` distinguishes. -/
inductive KeyMsg
  | runes (runes : String)
  | enter
  | esc
  | tab
  | backspace
deriving DecidableEq

/-- `MockREPL`: the repository's own driven test program. -/
structure MockREPL where
  input : String
  mode : String
  output : String
deriving DecidableEq

/-- `NewMockREPL`. -/
def newMockREPL : MockREPL :=
  { input := "", mode := "initial", output := "" }

/-- `MockREPL.Update`: rune keys append to the input buffer and switch to
`typing` mode; Enter commits; Escape clears; everything else is a no-op. -/
def mockUpdate (m : MockREPL) (msg : KeyMsg) : MockREPL :=
  match msg with
  | .runes rs => { m with input := m.input ++ rs, mode := "typing" }
  | .enter => { m with output := "processed: " ++ m.input, mode := "result",
                       input := "" }
  | .esc => { m with input := "", mode := "initial" }
  | _ => m

/-- `MockREPL.View`. -/
def mockView (m : MockREPL) : String :=
  if m.output == "" then
    "Mode: " ++ m.mode ++ "\nInput: " ++ m.input ++ "\n> "
  else
    "Mode: " ++ m.mode ++ "\nOutput: " ++ m.output ++ "\nInput: " ++ m.input ++ "\n> "

/-- One iteration of `StageDirector.Type`'s character loop driving the
`MockREPL`: deliver a single-rune key event (`sendMessage`, which also
captures an interaction snapshot when view capture is on), then append a
`type` action carrying that one character. -/
def typeChar (p : StageState × MockREPL) (c : Char) : StageState × MockREPL :=
  let m := mockUpdate p.2 (.runes (String.singleton c))
  let st1 := if p.1.captureViews then
      { p.1 with snapshots := p.1.snapshots ++ [⟨mockView m, m.mode, m.input⟩] }
    else p.1
  ({ st1 with interactions := st1.interactions ++ [⟨"type", String.singleton c⟩] }, m)

/-- `StageDirector.Type` iterating over the runes of the text (Go `range`
over a string yields runes). -/
def typeText (st : StageState) (m : MockREPL) (text : List Char) :
    StageState × MockREPL :=
  text.foldl typeChar (st, m)

end Steadicam

namespace Steadicam

/-! ### Helper lemmas about the synchronization core -/

theorem runSync_nil {M : Type} (st : SyncState M) : runSync st [] = st := rfl

theorem runSync_cons {M : Type} (st : SyncState M) (u : ModelUpdate M)
    (us : List (ModelUpdate M)) :
    runSync st (u :: us) = runSync (stepSync st u) us := rfl

theorem runSync_append {M : Type} (st : SyncState M)
    (us vs : List (ModelUpdate M)) :
    runSync st (us ++ vs) = runSync (runSync st us) vs :=
  List.foldl_append _ _ _ _

theorem stepSync_stale {M : Type} (st : SyncState M) (u : ModelUpdate M)
    (h : u.sequence ≤ st.lastProcessedSeq) :
    stepSync st u = { st with duplicateUpdates := st.duplicateUpdates + 1 } := by
  unfold stepSync
  rw [if_pos h]

theorem stepSync_applies {M : Type} (st : SyncState M) (u : ModelUpdate M)
    (h : st.lastProcessedSeq < u.sequence) :
    (stepSync st u).latest = u.model ∧
      (stepSync st u).lastProcessedSeq = u.sequence := by
  unfold stepSync
  rw [if_neg (not_le.mpr h)]
  split <;> exact ⟨rfl, rfl⟩

theorem stepSync_lastSeq {M : Type} (st : SyncState M) (u : ModelUpdate M) :
    (stepSync st u).lastProcessedSeq = max st.lastProcessedSeq u.sequence := by
  unfold stepSync
  by_cases h : u.sequence ≤ st.lastProcessedSeq
  · rw [if_pos h, max_eq_left h]
  · rw [if_neg h, max_eq_right (le_of_not_le h)]

theorem stepSync_lastSeq_mono {M : Type} (st : SyncState M) (u : ModelUpdate M) :
    st.lastProcessedSeq ≤ (stepSync st u).lastProcessedSeq := by
  rw [stepSync_lastSeq]
  exact le_max_left _ _

theorem runSync_lastSeq_mono {M : Type} (st : SyncState M)
    (us : List (ModelUpdate M)) :
    st.lastProcessedSeq ≤ (runSync st us).lastProcessedSeq := by
  induction us generalizing st with
  | nil => exact le_rfl
  | cons u rest ih =>
      rw [runSync_cons]
      exact le_trans (stepSync_lastSeq_mono st u) (ih (stepSync st u))

theorem runSync_all_stale {M : Type} (st : SyncState M)
    (us : List (ModelUpdate M))
    (h : ∀ v ∈ us, v.sequence ≤ st.lastProcessedSeq) :
    (runSync st us).latest = st.latest ∧
      (runSync st us).lastProcessedSeq = st.lastProcessedSeq := by
  induction us generalizing st with
  | nil => exact ⟨rfl, rfl⟩
  | cons u rest ih =>
      have hu : u.sequence ≤ st.lastProcessedSeq := h u (List.mem_cons_self _ _)
      rw [runSync_cons, stepSync_stale st u hu]
      exact ih _ (fun v hv => h v (List.mem_cons_of_mem _ hv))

theorem runSync_latest_max {M : Type} (u : ModelUpdate M) :
    ∀ (us : List (ModelUpdate M)) (st : SyncState M),
      u ∈ us →
      (∀ v ∈ us, v.sequence ≤ u.sequence) →
      (∀ v ∈ us, v.sequence = u.sequence → v = u) →
      st.lastProcessedSeq < u.sequence →
      (runSync st us).latest = u.model ∧
        (runSync st us).lastProcessedSeq = u.sequence := by
  intro us
  induction us with
  | nil =>
      intro st hmem _ _ _
      cases hmem
  | cons w rest ih =>
      intro st hmem hmax huniq hgt
      rw [runSync_cons]
      by_cases hw : w = u
      · subst hw
        have happ := stepSync_applies st w hgt
        have hstale : ∀ v ∈ rest, v.sequence ≤ (stepSync st w).lastProcessedSeq := by
          intro v hv
          rw [happ.2]
          exact hmax v (List.mem_cons_of_mem _ hv)
        have hrun := runSync_all_stale (stepSync st w) rest hstale
        exact ⟨hrun.1.trans happ.1, hrun.2.trans happ.2⟩
      · have hmem' : u ∈ rest := by
          rcases List.mem_cons.mp hmem with h | h
          · exact absurd h.symm hw
          · exact h
        have hwle : w.sequence ≤ u.sequence := hmax w (List.mem_cons_self _ _)
        have hwne : w.sequence ≠ u.sequence := fun he =>
          hw (huniq w (List.mem_cons_self _ _) he)
        have hwlt : w.sequence < u.sequence := lt_of_le_of_ne hwle hwne
        have hlt' : (stepSync st w).lastProcessedSeq < u.sequence := by
          rw [stepSync_lastSeq]
          exact max_lt hgt hwlt
        exact ih (stepSync st w) hmem'
          (fun v hv => hmax v (List.mem_cons_of_mem _ hv))
          (fun v hv he => huniq v (List.mem_cons_of_mem _ hv) he) hlt'

/-! ### C1 and C2 -/

/-- C1: each consumer step on a dequeued update with sequence `s` —
if `s ≤ lastProcessedSeq` only `duplicateUpdates` is bumped and the
state cell is untouched; if `s > lastProcessedSeq + 1` the gap counter is
bumped and the update is still applied; if `s = lastProcessedSeq + 1` the
update is applied touching neither diagnostic counter; applying sets
`latest` and `lastProcessedSeq` and bumps `updatesProcessed`.  Processing
sequence 5 then sequence 3 leaves `latest` at the sequence-5 state and
bumps `duplicateUpdates` by exactly 1. -/
theorem sync_consumer_step_spec {M : Type} (st : SyncState M) (u : ModelUpdate M) :
    (u.sequence ≤ st.lastProcessedSeq →
      stepSync st u = { st with duplicateUpdates := st.duplicateUpdates + 1 }) ∧
    (u.sequence > st.lastProcessedSeq + 1 →
      stepSync st u = { st with latest := u.model,
                                lastProcessedSeq := u.sequence,
                                sequenceGaps := st.sequenceGaps + 1,
                                updatesProcessed := st.updatesProcessed + 1 }) ∧
    (u.sequence = st.lastProcessedSeq + 1 →
      stepSync st u = { st with latest := u.model,
                                lastProcessedSeq := u.sequence,
                                updatesProcessed := st.updatesProcessed + 1 }) ∧
    runSync (⟨"init", 0, 0, 0, 0⟩ : SyncState String)
        [⟨"state5", 5⟩, ⟨"state3", 3⟩] = ⟨"state5", 5, 1, 1, 1⟩ := by
  refine ⟨fun h => stepSync_stale st u h, fun h => ?_, fun h => ?_, by decide⟩
  · unfold stepSync
    rw [if_neg (not_le.mpr (by omega)), if_pos h]
  · unfold stepSync
    rw [if_neg (not_le.mpr (by omega))]
    rw [if_neg (by omega)]

/-- Witness for C1 at concrete inputs: a stale update (sequence 3 against
a cell at sequence 5) only bumps the duplicate counter. -/
theorem sync_consumer_step_spec_witness :
    stepSync (⟨"a", 5, 0, 0, 0⟩ : SyncState String) ⟨"b", 3⟩ = ⟨"a", 5, 1, 0, 0⟩ := by
  have h := (sync_consumer_step_spec (⟨"a", 5, 0, 0, 0⟩ : SyncState String)
    ⟨"b", 3⟩).1 (by decide)
  simpa using h

/-- C2: the publish path is a pure non-blocking queue attempt — when the
bounded queue has room the update (stamped with the freshly incremented
sequence counter) is enqueued and `updatesSent` is bumped; when the queue
is full the update is dropped and `bufferOverflows` and `droppedUpdates`
are each bumped by exactly one while `updatesSent` (and the queue) are
unchanged; in both cases the shared sequence counter is incremented
exactly once. -/
theorem publish_nonblocking_spec {M : Type} (st : PubState M) (m : M) :
    (st.queue.length < st.capacity →
      publish st m = { st with updateSeq := st.updateSeq + 1,
                               queue := st.queue ++ [⟨m, st.updateSeq + 1⟩],
                               updatesSent := st.updatesSent + 1 }) ∧
    (¬ st.queue.length < st.capacity →
      publish st m = { st with updateSeq := st.updateSeq + 1,
                               bufferOverflows := st.bufferOverflows + 1,
                               droppedUpdates := st.droppedUpdates + 1 }) := by
  constructor
  · intro h
    unfold publish
    rw [if_pos h]
  · intro h
    unfold publish
    rw [if_neg h]

/-- Witness for C2 at concrete inputs: one publish into a queue with room
and one into a full queue. -/
theorem publish_nonblocking_spec_witness :
    publish (⟨[], 2, 0, 0, 0, 0⟩ : PubState String) "s1"
      = ⟨[⟨"s1", 1⟩], 2, 1, 1, 0, 0⟩ ∧
    publish (⟨[⟨"a", 1⟩, ⟨"b", 2⟩], 2, 2, 2, 0, 0⟩ : PubState String) "c"
      = ⟨[⟨"a", 1⟩, ⟨"b", 2⟩], 2, 3, 2, 1, 1⟩ := by
  constructor
  · have h := (publish_nonblocking_spec (⟨[], 2, 0, 0, 0, 0⟩ : PubState String)
      "s1").1 (by decide)
    simpa using h
  · have h := (publish_nonblocking_spec
      (⟨[⟨"a", 1⟩, ⟨"b", 2⟩], 2, 2, 2, 0, 0⟩ : PubState String) "c").2 (by decide)
    simpa using h

end Steadicam

namespace Steadicam

/-- C3: invariant of the synchronized state cell over consumer steps —
`lastProcessedSeq` is monotonically non-decreasing (per step and across
any extension of a run, so a reader of the cell never observes a lower
sequence after a higher one), and after draining a batch in which `u` is
the update with the strictly highest sequence number (and that sequence
exceeds the cell's), `latest` holds exactly `u`'s state and
`lastProcessedSeq` holds `u`'s sequence. -/
theorem sync_monotone_latest_highest (M : Type) :
    (∀ (st : SyncState M) (u : ModelUpdate M),
        st.lastProcessedSeq ≤ (stepSync st u).lastProcessedSeq) ∧
    (∀ (st : SyncState M) (us vs : List (ModelUpdate M)),
        (runSync st us).lastProcessedSeq ≤ (runSync st (us ++ vs)).lastProcessedSeq) ∧
    (∀ (st : SyncState M) (us : List (ModelUpdate M)) (u : ModelUpdate M),
        u ∈ us →
        (∀ v ∈ us, v.sequence ≤ u.sequence) →
        (∀ v ∈ us, v.sequence = u.sequence → v = u) →
        st.lastProcessedSeq < u.sequence →
        (runSync st us).latest = u.model ∧
          (runSync st us).lastProcessedSeq = u.sequence) := by
  refine ⟨stepSync_lastSeq_mono, fun st us vs => ?_, fun st us u h1 h2 h3 h4 =>
    runSync_latest_max u us st h1 h2 h3 h4⟩
  rw [runSync_append]
  exact runSync_lastSeq_mono _ vs

/-- Witness for C3 at concrete inputs: draining updates with sequences
2, 1, 4, 3 from a cell at sequence 0 leaves `latest` at the sequence-4
state, and the run's `lastProcessedSeq` only ever grew. -/
theorem sync_monotone_latest_highest_witness :
    ((runSync (⟨"init", 0, 0, 0, 0⟩ : SyncState String)
        [⟨"s2", 2⟩, ⟨"s1", 1⟩, ⟨"s4", 4⟩, ⟨"s3", 3⟩]).latest = "s4" ∧
      (runSync (⟨"init", 0, 0, 0, 0⟩ : SyncState String)
        [⟨"s2", 2⟩, ⟨"s1", 1⟩, ⟨"s4", 4⟩, ⟨"s3", 3⟩]).lastProcessedSeq = 4) ∧
    (runSync (⟨"init", 0, 0, 0, 0⟩ : SyncState String)
        [⟨"s2", 2⟩]).lastProcessedSeq ≤
      (runSync (⟨"init", 0, 0, 0, 0⟩ : SyncState String)
        ([⟨"s2", 2⟩] ++ [⟨"s1", 1⟩, ⟨"s4", 4⟩, ⟨"s3", 3⟩])).lastProcessedSeq := by
  constructor
  · exact (sync_monotone_latest_highest String).2.2
      (⟨"init", 0, 0, 0, 0⟩ : SyncState String)
      [⟨"s2", 2⟩, ⟨"s1", 1⟩, ⟨"s4", 4⟩, ⟨"s3", 3⟩] ⟨"s4", 4⟩
      (by decide) (by decide) (by decide) (by decide)
  · exact (sync_monotone_latest_highest String).2.1
      (⟨"init", 0, 0, 0, 0⟩ : SyncState String)
      [⟨"s2", 2⟩] [⟨"s1", 1⟩, ⟨"s4", 4⟩, ⟨"s3", 3⟩]

end Steadicam

namespace Steadicam

/-! ### Helper lemmas about recording trips and stopping -/

theorem recordTrip_failed (st : StageState) (t : Trip) :
    (recordTrip st t).failed = (st.failed || !t.canRecover) := by
  cases hc : t.canRecover <;> simp [recordTrip, hc]

theorem recordTrip_lastTrip (st : StageState) (t : Trip) :
    (recordTrip st t).lastTrip = some t := rfl

theorem foldl_recordTrip_failed (st : StageState) (ts : List Trip) :
    (ts.foldl recordTrip st).failed = (st.failed || ts.any fun t => !t.canRecover) := by
  induction ts generalizing st with
  | nil => simp
  | cons t rest ih =>
      simp only [List.foldl_cons, List.any_cons]
      rw [ih, recordTrip_failed, Bool.or_assoc]

theorem foldl_recordTrip_lastTrip (st : StageState) (ts : List Trip) :
    (ts.foldl recordTrip st).lastTrip = none ↔ ts = [] ∧ st.lastTrip = none := by
  induction ts generalizing st with
  | nil => simp
  | cons t rest ih =>
      simp only [List.foldl_cons]
      rw [ih]
      simp [recordTrip]

theorem stageStop_success (st : StageState) (cur : StageSnapshot) :
    (stageStop st cur).2.success = (!st.failed && st.lastTrip.isNone) := by
  unfold stageStop
  split <;> rfl

/-! ### C4 -/

/-- C4 as stated is false on the code: a session whose only recorded trip
is a `Stumble` does not set the `failed` flag, yet `Stop` still returns
`success = false`, because success additionally requires `lastTrip` to be
nil and `recordTrip` stores every trip — stumbles included — in
`lastTrip`. -/
theorem stop_success_stumble_counterexample :
    (recordTrip initStage (newStumble "visual" "screenshot capture failed" [])).failed
        = false ∧
    (stageStop (recordTrip initStage (newStumble "visual" "screenshot capture failed" []))
        ⟨"", "", ""⟩).2.success = false := by
  decide

/-- C4 (amended): the final result's `success` is false iff any trip of
any severity was recorded (`recordTrip` stores every trip in `lastTrip`
and `Stop` requires both `!failed` and a nil `lastTrip`); the `failed`
flag itself is set iff some recorded trip has non-`Stumble` severity
(`Error` or `Fall`), so a Stumble-only session ends with the `failed`
flag clear but `success = false` all the same. -/
theorem stop_success_iff_no_trip (ts : List Trip) (cur : StageSnapshot) :
    ((stageStop (ts.foldl recordTrip initStage) cur).2.success = true ↔ ts = []) ∧
    ((ts.foldl recordTrip initStage).failed = true ↔
      ∃ t ∈ ts, t.severity ≠ Severity.stumble) := by
  constructor
  · rw [stageStop_success]
    simp only [Bool.and_eq_true, Bool.not_eq_true', Option.isNone_iff_eq_none,
      foldl_recordTrip_lastTrip]
    constructor
    · rintro ⟨-, h, -⟩
      exact h
    · rintro rfl
      simp [initStage, foldl_recordTrip_failed]
  · rw [foldl_recordTrip_failed]
    simp only [initStage, Bool.false_or, List.any_eq_true, Bool.not_eq_true']
    constructor
    · rintro ⟨t, ht, hc⟩
      refine ⟨t, ht, fun he => ?_⟩
      rw [Trip.canRecover, he] at hc
      simp at hc
    · rintro ⟨t, ht, hs⟩
      refine ⟨t, ht, ?_⟩
      rw [Trip.canRecover]
      cases h : t.severity == Severity.stumble
      · rfl
      · exact absurd (by simpa using h) hs

/-- Witness for C4's amended theorem at concrete inputs: with no trip
recorded, `Stop` reports success. -/
theorem stop_success_iff_no_trip_witness :
    (stageStop (([] : List Trip).foldl recordTrip initStage) ⟨"", "", ""⟩).2.success
      = true :=
  (stop_success_iff_no_trip [] ⟨"", "", ""⟩).1.mpr rfl

/-! ### C5 -/

/-- C5 as stated is false on the code: the `MODEL_PANIC` trip recorded by
`handleModelPanic` is built with `newStageTrip`, i.e. `trip.NewTrip`,
whose severity defaults to `Error` — not `Fall`. -/
theorem model_panic_severity_counterexample :
    ((handleModelPanic initStage "boom" "tea.KeyMsg" "*steadicam.MockREPL"
        "some view" "some input").lastTrip.map Trip.severity) = some Severity.error ∧
    Severity.error ≠ Severity.fall := by
  decide

/-- C5 (amended): when the driven program's update panics or returns a
nil/non-conforming state, the wrapper captures an error snapshot, records
a `MODEL_PANIC` (respectively `INVALID_MODEL_STATE`) trip whose severity
is `Error` (the `newStageTrip` default — not `Fall`, though it still sets
the `failed` flag since `Error` is non-recoverable), and cancels the
session context. -/
theorem model_failure_fail_fast (st : StageState)
    (pv teaMsg modelType curView curInput reason : String) :
    ((handleModelPanic st pv teaMsg modelType curView curInput).lastTrip =
        some (newStageTrip "MODEL_PANIC" ("Model panic during Update: " ++ pv)
          [("panic_value", pv), ("tea_msg", teaMsg), ("model_type", modelType)]) ∧
      (newStageTrip "MODEL_PANIC" ("Model panic during Update: " ++ pv)
          [("panic_value", pv), ("tea_msg", teaMsg), ("model_type", modelType)]).severity
        = Severity.error ∧
      (handleModelPanic st pv teaMsg modelType curView curInput).cancelled = true ∧
      (handleModelPanic st pv teaMsg modelType curView curInput).failed = true ∧
      (handleModelPanic st pv teaMsg modelType curView curInput).snapshots =
        st.snapshots ++
          [{ view := "ERROR STATE (" ++ "model_panic" ++ ")\n" ++ ("Panic: " ++ pv)
                ++ "\n\nLast View:\n" ++ curView,
             mode := "error_" ++ "model_panic",
             input := curInput }]) ∧
    ((handleInvalidModelState st reason teaMsg modelType curView curInput).lastTrip =
        some (newStageTrip "INVALID_MODEL_STATE" reason
          [("tea_msg", teaMsg), ("model_type", modelType)]) ∧
      (newStageTrip "INVALID_MODEL_STATE" reason
          [("tea_msg", teaMsg), ("model_type", modelType)]).severity = Severity.error ∧
      (handleInvalidModelState st reason teaMsg modelType curView curInput).cancelled
        = true ∧
      (handleInvalidModelState st reason teaMsg modelType curView curInput).failed
        = true ∧
      (handleInvalidModelState st reason teaMsg modelType curView curInput).snapshots =
        st.snapshots ++
          [{ view := "ERROR STATE (" ++ "invalid_model_state" ++ ")\n" ++ reason
                ++ "\n\nLast View:\n" ++ curView,
             mode := "error_" ++ "invalid_model_state",
             input := curInput }]) := by
  refine ⟨⟨rfl, rfl, rfl, ?_, rfl⟩, rfl, rfl, rfl, ?_, rfl⟩ <;>
    simp [handleModelPanic, handleInvalidModelState, captureErrorSnapshot,
      recordTrip, newStageTrip, newTrip, Trip.canRecover]

end Steadicam

namespace Steadicam

/-! ### Helper lemmas about the wait loops -/

theorem waitForTextLoop_timeout (text atTimeout : String) (views : List String)
    (st : StageState) (polls : Nat)
    (h : ∀ v ∈ views, strContains v text = false) :
    waitForTextLoop text atTimeout views st polls =
      (recordTrip st (newStageTrip "WAIT_TEXT_TIMEOUT"
        ("Timeout waiting for text " ++ text)
        [("expected_text", text), ("current_view", atTimeout)]),
       polls + views.length) := by
  induction views generalizing st polls with
  | nil => simp [waitForTextLoop]
  | cons v rest ih =>
      have hv : strContains v text = false := h v (List.mem_cons_self _ _)
      rw [waitForTextLoop, if_neg (by simp [hv])]
      rw [ih st (polls + 1) (fun w hw => h w (List.mem_cons_of_mem _ hw))]
      refine congrArg _ ?_
      simp [List.length_cons]
      omega

theorem waitForModeLoop_timeout (expected atTimeout : String) (sched : List String)
    (st : StageState) (polls : Nat)
    (h : ∀ m ∈ sched, (m == expected) = false) :
    waitForModeLoop expected atTimeout sched st polls =
      (recordTrip st (newStageTrip "WAIT_MODE_TIMEOUT"
        ("Timeout waiting for mode " ++ expected)
        [("expected_mode", expected), ("current_mode", atTimeout)]),
       polls + sched.length) := by
  induction sched generalizing st polls with
  | nil => simp [waitForModeLoop]
  | cons m rest ih =>
      have hm : (m == expected) = false := h m (List.mem_cons_self _ _)
      rw [waitForModeLoop, if_neg (by simp [hm])]
      rw [ih st (polls + 1) (fun w hw => h w (List.mem_cons_of_mem _ hw))]
      refine congrArg _ ?_
      simp [List.length_cons]
      omega

theorem itdWaitForTextLoop_timeout (text atTimeout : String) (views : List String)
    (st : ITDState)
    (h : ∀ v ∈ views, strContains v text = false) :
    itdWaitForTextLoop text atTimeout views st =
      itdRecordError st
        { type := "timeout",
          message := "Timeout waiting for text " ++ text,
          context := [("expected_text", text), ("current_view", atTimeout)] } := by
  induction views generalizing st with
  | nil => rfl
  | cons v rest ih =>
      have hv : strContains v text = false := h v (List.mem_cons_self _ _)
      rw [itdWaitForTextLoop, if_neg (by simp [hv])]
      exact ih st (fun w hw => h w (List.mem_cons_of_mem _ hw))

/-! ### C6 -/

/-- C6 as stated is false on the code: the trip recorded when
`StageDirector.WaitForText` times out has type `WAIT_TEXT_TIMEOUT`, not
the literal `timeout`. -/
theorem wait_text_timeout_type_counterexample :
    ((waitForText initStage "never" ["Mode: initial\n> "] "Mode: initial\n> ").1.lastTrip.map
        Trip.type) = some "WAIT_TEXT_TIMEOUT" ∧
    some "WAIT_TEXT_TIMEOUT" ≠ some "timeout" := by
  decide

/-- C6 (amended): when a wait reaches its deadline with the predicate
never true, exactly one trip is recorded — appended to the handler's trip
list, with the stumble list untouched — of severity `Error`, whose
context carries the expected condition and the relevant current state;
its type is the wait-specific `WAIT_TEXT_TIMEOUT` (resp.
`WAIT_MODE_TIMEOUT`), not the literal `timeout`; the older
`InteractiveTestDirector.WaitForText` instead records a severity-less
`TestError` whose type is the literal `timeout` with the same context. -/
theorem wait_timeout_records_one_error_trip (st : StageState) (text expected : String)
    (views sched : List String) (atTimeoutView atTimeoutMode : String)
    (st2 : ITDState)
    (hok : st.failed = false)
    (hviews : ∀ v ∈ views, strContains v text = false)
    (hsched : ∀ m ∈ sched, (m == expected) = false) :
    ((waitForText st text views atTimeoutView).1.tripHandler.trips =
        st.tripHandler.trips ++
          [newStageTrip "WAIT_TEXT_TIMEOUT" ("Timeout waiting for text " ++ text)
            [("expected_text", text), ("current_view", atTimeoutView)]] ∧
      (waitForText st text views atTimeoutView).1.tripHandler.stumbles =
        st.tripHandler.stumbles ∧
      (newStageTrip "WAIT_TEXT_TIMEOUT" ("Timeout waiting for text " ++ text)
          [("expected_text", text), ("current_view", atTimeoutView)]).severity
        = Severity.error ∧
      ("expected_text", text) ∈
        (newStageTrip "WAIT_TEXT_TIMEOUT" ("Timeout waiting for text " ++ text)
          [("expected_text", text), ("current_view", atTimeoutView)]).context ∧
      ("current_view", atTimeoutView) ∈
        (newStageTrip "WAIT_TEXT_TIMEOUT" ("Timeout waiting for text " ++ text)
          [("expected_text", text), ("current_view", atTimeoutView)]).context) ∧
    ((waitForMode st expected sched atTimeoutMode).1.tripHandler.trips =
        st.tripHandler.trips ++
          [newStageTrip "WAIT_MODE_TIMEOUT" ("Timeout waiting for mode " ++ expected)
            [("expected_mode", expected), ("current_mode", atTimeoutMode)]] ∧
      (waitForMode st expected sched atTimeoutMode).1.tripHandler.stumbles =
        st.tripHandler.stumbles) ∧
    ((itdWaitForText st2 text views atTimeoutView).lastError =
        some { type := "timeout",
               message := "Timeout waiting for text " ++ text,
               context := [("expected_text", text), ("current_view", atTimeoutView)] } ∧
      (itdWaitForText st2 text views atTimeoutView).failed = true) := by
  have ht := waitForTextLoop_timeout text atTimeoutView views st 0 hviews
  have hm := waitForModeLoop_timeout expected atTimeoutMode sched st 0 hsched
  have hi := itdWaitForTextLoop_timeout text atTimeoutView views st2 hviews
  refine ⟨⟨?_, ?_, rfl, ?_, ?_⟩, ⟨?_, ?_⟩, ?_, ?_⟩
  · rw [waitForText, if_neg (by simp [hok]), ht]
    simp [recordTrip, Handler.record, newStageTrip, newTrip]
  · rw [waitForText, if_neg (by simp [hok]), ht]
    simp [recordTrip, Handler.record, newStageTrip, newTrip]
  · simp [newStageTrip, newTrip]
  · simp [newStageTrip, newTrip]
  · rw [waitForMode, if_neg (by simp [hok]), hm]
    simp [recordTrip, Handler.record, newStageTrip, newTrip]
  · rw [waitForMode, if_neg (by simp [hok]), hm]
    simp [recordTrip, Handler.record, newStageTrip, newTrip]
  · rw [itdWaitForText, hi]
    rfl
  · rw [itdWaitForText, hi]
    rfl

/-- Witness for C6's amended theorem at concrete inputs. -/
theorem wait_timeout_records_one_error_trip_witness :
    (waitForText initStage "never" ["Mode: initial\n> "] "Mode: initial\n> ").1.tripHandler.trips
      = [newStageTrip "WAIT_TEXT_TIMEOUT" ("Timeout waiting for text " ++ "never")
          [("expected_text", "never"), ("current_view", "Mode: initial\n> ")]] := by
  have h := wait_timeout_records_one_error_trip initStage "never" "searching"
    ["Mode: initial\n> "] ["initial"] "Mode: initial\n> " "initial" initITD
    rfl (by decide) (by decide)
  simpa [initStage] using h.1.1

/-! ### C7 -/

/-- C7: after a `Fall`-severity trip is recorded the director's `failed`
flag is set, so every subsequent wait operation returns its state
unchanged with zero polls — no polling loop entered, no extra trip
recorded. -/
theorem fall_short_circuits_waits (st : StageState) (t : Trip)
    (h : t.severity = Severity.fall) (m text : String)
    (sched views rviews : List String) (am av arv : String) :
    waitForMode (recordTrip st t) m sched am = (recordTrip st t, 0) ∧
    waitForText (recordTrip st t) text views av = (recordTrip st t, 0) ∧
    waitForSearchResults (recordTrip st t) rviews arv = (recordTrip st t, 0) := by
  have hf : (recordTrip st t).failed = true := by
    rw [recordTrip_failed, Trip.canRecover, h]
    simp
  exact ⟨by simp [waitForMode, hf], by simp [waitForText, hf],
    by simp [waitForSearchResults, hf]⟩

/-- Witness for C7 at concrete inputs: after a `Fall` from a simulated
model panic, `waitForMode "anything"` returns immediately with zero
polls. -/
theorem fall_short_circuits_waits_witness :
    waitForMode (recordTrip initStage (newFall "MODEL_PANIC" "boom" []))
        "anything" ["initial", "typing"] "initial"
      = (recordTrip initStage (newFall "MODEL_PANIC" "boom" []), 0) :=
  (fall_short_circuits_waits initStage (newFall "MODEL_PANIC" "boom" []) rfl
    "anything" "sometext" ["initial", "typing"] ["v"] ["r"] "initial" "v" "r").1

end Steadicam

namespace Steadicam

/-! ### C8 -/

/-- C8 as stated is false on the code for the `StageDirector`: its `Stop`
has no never-started guard, so stopping a freshly constructed (never
started, trip-free) stage director returns `success = true`, not an
immediate failure. -/
theorem stage_stop_unstarted_counterexample :
    initStage.started = false ∧
    (stageStop initStage ⟨"", "", ""⟩).2.success = true := by
  decide

/-- C8 (amended): `InteractiveTestDirector.Stop` on a never-started
director returns an immediate failure result — `success = false`, the
message "Test director was never started", empty interaction and snapshot
lists — and leaves the director state untouched; the `StageDirector`'s
`Stop`, by contrast, has no never-started guard: on an unstarted,
trip-free director it skips the final snapshot, cancels the context (a
side effect), and returns `success = true` with the accumulated (empty)
actions and snapshots. -/
theorem stop_before_start_behavior (st : ITDState) (h : st.started = false)
    (st2 : StageState) (h2 : st2.started = false) (h3 : st2.failed = false)
    (h4 : st2.lastTrip = none) (cur : StageSnapshot) :
    interactiveStop st =
      (st, { interactions := [], snapshots := [], success := false,
             errorMessage := "Test director was never started" }) ∧
    (stageStop st2 cur).2.success = true ∧
    (stageStop st2 cur).2.actions = st2.interactions ∧
    (stageStop st2 cur).2.snapshots = st2.snapshots ∧
    (stageStop st2 cur).1.cancelled = true := by
  refine ⟨?_, ?_, ?_, ?_, ?_⟩
  · rw [interactiveStop, if_neg (by simp [h])]
  · rw [stageStop_success, h3, h4]
    rfl
  · rw [stageStop, if_neg (by simp [h2])]
  · rw [stageStop, if_neg (by simp [h2])]
  · rw [stageStop, if_neg (by simp [h2])]

/-- Witness for C8's amended theorem at concrete inputs: the two freshly
constructed directors. -/
theorem stop_before_start_behavior_witness :
    interactiveStop initITD =
      (initITD, { interactions := [], snapshots := [], success := false,
                  errorMessage := "Test director was never started" }) ∧
    (stageStop initStage ⟨"", "", ""⟩).2.success = true := by
  have h := stop_before_start_behavior initITD rfl initStage rfl rfl rfl ⟨"", "", ""⟩
  exact ⟨h.1, h.2.1⟩

/-! ### C10 -/

/-- C10: recording any non-recoverable trip — any severity other than
`Stumble`, so `Error`-severity trips such as failed assertions included —
sets the `failed` flag; from then on every wait operation returns its
state unchanged with zero polls, while assertions still execute: a
passing assertion still appends its action and a failing one still
records its trip, independent of the `failed` flag. -/
theorem error_trip_short_circuits_waits (st : StageState) (t : Trip)
    (h : t.severity ≠ Severity.stumble) (m text : String)
    (sched views rviews : List String) (am av arv : String)
    (view atext : String) :
    (recordTrip st t).failed = true ∧
    waitForMode (recordTrip st t) m sched am = (recordTrip st t, 0) ∧
    waitForText (recordTrip st t) text views av = (recordTrip st t, 0) ∧
    waitForSearchResults (recordTrip st t) rviews arv = (recordTrip st t, 0) ∧
    (strContains view atext = true →
      (assertViewContains (recordTrip st t) view atext).interactions =
        (recordTrip st t).interactions ++ [⟨"assertion", "contains=" ++ atext⟩]) ∧
    (strContains view atext = false →
      (assertViewContains (recordTrip st t) view atext).tripHandler.trips =
        (recordTrip st t).tripHandler.trips ++
          [newStageTrip "assertion" ("View does not contain expected text: " ++ atext)
            [("expected", atext), ("actual_view", view)]]) := by
  have hf : (recordTrip st t).failed = true := by
    rw [recordTrip_failed, Trip.canRecover]
    cases hs : t.severity == Severity.stumble
    · simp
    · exact absurd (by simpa using hs) h
  refine ⟨hf, by simp [waitForMode, hf], by simp [waitForText, hf],
    by simp [waitForSearchResults, hf], fun hc => ?_, fun hc => ?_⟩
  · simp [assertViewContains, hc]
  · rw [assertViewContains, if_neg (by simp [hc])]
    simp [recordTrip, Handler.record, newStageTrip, newTrip]

/-- Witness for C10 at concrete inputs: an `Error`-severity assertion
trip sets the failed flag and a later passing assertion still appends its
action. -/
theorem error_trip_short_circuits_waits_witness :
    (recordTrip initStage (newTrip "assertion" "Expected mode a, got b" [])).failed
        = true ∧
    (assertViewContains
        (recordTrip initStage (newTrip "assertion" "Expected mode a, got b" []))
        "hello world" "hello").interactions =
      (recordTrip initStage (newTrip "assertion" "Expected mode a, got b" [])).interactions
        ++ [⟨"assertion", "contains=" ++ "hello"⟩] := by
  have h := error_trip_short_circuits_waits initStage
    (newTrip "assertion" "Expected mode a, got b" []) (by decide)
    "m" "text" [] [] [] "am" "av" "arv" "hello world" "hello"
  exact ⟨h.1, h.2.2.2.2.1 (by decide)⟩

end Steadicam

namespace Steadicam

/-! ### Helper lemmas about typing -/

theorem typeText_input (st : StageState) (m : MockREPL) (cs : List Char) :
    (typeText st m cs).2.input = m.input ++ String.mk cs := by
  induction cs generalizing st m with
  | nil => exact (String.append_empty m.input).symm
  | cons c rest ih =>
      have h1 : typeText st m (c :: rest)
          = typeText (typeChar (st, m) c).1 (typeChar (st, m) c).2 rest := rfl
      rw [h1, ih]
      show (m.input ++ String.singleton c) ++ String.mk rest = _
      rw [String.append_assoc]
      rfl

theorem typeChar_interactions (st : StageState) (m : MockREPL) (c : Char) :
    (typeChar (st, m) c).1.interactions =
      st.interactions ++ [⟨"type", String.singleton c⟩] := by
  cases hcv : st.captureViews <;> simp [typeChar, hcv]

theorem typeText_interactions (st : StageState) (m : MockREPL) (cs : List Char) :
    (typeText st m cs).1.interactions =
      st.interactions ++ (cs.map fun c => ⟨"type", String.singleton c⟩) := by
  induction cs generalizing st m with
  | nil => simp [typeText]
  | cons c rest ih =>
      have h1 : typeText st m (c :: rest)
          = typeText (typeChar (st, m) c).1 (typeChar (st, m) c).2 rest := rfl
      rw [h1, ih, typeChar_interactions]
      simp

/-! ### C9 -/

/-- C9: `Type(text)` delivers one single-rune key event per character and
appends exactly one `type`-kind action per character, each carrying that
one character; on the repository's `MockREPL` (whose update rule appends
the received runes to its input buffer) the typed text is appended
verbatim to the current input — a pure input-simulation pass-through —
and concretely typing "hello" from a fresh director and model yields
current input "hello" and exactly 5 `type`-kind actions. -/
theorem type_passthrough_spec (st : StageState) (m : MockREPL) (text : List Char) :
    ((typeText st m text).2.input = m.input ++ String.mk text) ∧
    ((typeText st m text).1.interactions =
      st.interactions ++ (text.map fun c => ⟨"type", String.singleton c⟩)) ∧
    ((typeText st m text).1.interactions.length
      = st.interactions.length + text.length) ∧
    (∀ c ∈ text, (⟨"type", String.singleton c⟩ : StageAction).type = "type" ∧
      (String.singleton c).length = 1) ∧
    ((typeText initStage newMockREPL ['h', 'e', 'l', 'l', 'o']).2.input = "hello" ∧
      ((typeText initStage newMockREPL ['h', 'e', 'l', 'l', 'o']).1.interactions.filter
          fun a => a.type == "type").length = 5) := by
  refine ⟨typeText_input st m text, typeText_interactions st m text, ?_, ?_, by decide⟩
  · rw [typeText_interactions]
    simp
  · intro c _
    exact ⟨rfl, rfl⟩

/-- Witness for C9 at concrete inputs: typing "hi" into a fresh mock REPL
yields input "hi" and two one-character `type` actions. -/
theorem type_passthrough_spec_witness :
    (typeText initStage newMockREPL ['h', 'i']).2.input = "hi" ∧
    (typeText initStage newMockREPL ['h', 'i']).1.interactions =
      [⟨"type", "h"⟩, ⟨"type", "i"⟩] := by
  have h := type_passthrough_spec initStage newMockREPL ['h', 'i']
  exact ⟨by simpa using h.1, by simpa [initStage] using h.2.1⟩

end Steadicam
